import Mathlib

/-!
Shallow embedding of the obsidian-journal-monitor core pipeline:
the canonical `Article` data model (src/types.ts), the filter/sort and
filter-fingerprint functions (src/utils.ts), the OpenAlex source adapter and
abstract reconstructor (src/api.ts), the per-journal sync/merge loop of the
plugin's `fetchArticles` (main.ts), and the save/skip state transitions of
`BrowseView` (src/views/BrowseView.ts).

JavaScript runtime conventions are modelled explicitly:
* plain objects used as string-keyed maps become association lists with
  `jsGet`/`jsSet` (assignment to an existing key updates in place, a fresh key
  is appended, preserving JS property insertion order);
* `undefined`-able values become `Option`;
* `x || y` on numbers treats `0` as falsy (`jsOrNat`/`jsOrInt`), on strings
  treats `""` as falsy (`jsOrStr`), and on possibly-`undefined` arrays is
  `Option.orElse` since every array (even `[]`) is truthy (`jsOrArr`);
* `Array.prototype.sort` (stable since ES2019) becomes `List.insertionSort`,
  whose `orderedInsert` places the earlier element before ties, so it is a
  stable sort; a stable sort consistent with a total-preorder comparator `c`
  has a unique result, so translating `c` to the relation `fun a b => c a b ≤ 0`
  gives exactly the JS result;
* machine floats (OpenAlex relevance scores) are modelled as `Rat`;
* `Date`-based sort keys for `YYYY-MM-DD` strings are modelled by a
  numeric key that is strictly monotone in the calendar date (`dateVal`),
  which determines the same ordering as `new Date(s).getTime()`.
-/

/-! ### JS object-as-map model -/

/-- Lookup `m[k]` on a JS object modelled as an association list. -/
def jsGet {α : Type} (m : List (String × α)) (k : String) : Option α :=
  (m.find? (fun p => p.1 == k)).map (·.2)

/-- Assignment `m[k] = v` on a JS object: updates the existing entry in place,
or appends a fresh entry (JS property insertion order). -/
def jsSet {α : Type} (m : List (String × α)) (k : String) (v : α) :
    List (String × α) :=
  match m with
  | [] => [(k, v)]
  | (k', v') :: rest => if k' = k then (k, v) :: rest else (k', v') :: jsSet rest k v

/-- JS `a || b` for numbers: `0` is falsy, `undefined` is falsy. -/
def jsOrNat (a : Option Nat) (b : Nat) : Nat :=
  match a with
  | some n => if n = 0 then b else n
  | none => b

/-- JS `a || b` for integers: `0` is falsy, `undefined` is falsy. -/
def jsOrInt (a : Option Int) (b : Int) : Int :=
  match a with
  | some n => if n = 0 then b else n
  | none => b

/-- JS truthiness of a possibly-`undefined` string: `undefined` and `""` are falsy. -/
def strTruthy (a : Option String) : Bool :=
  match a with
  | some s => !s.isEmpty
  | none => false

/-- JS `a || b` for possibly-`undefined` strings (`""` is falsy). -/
def jsOrStr (a : Option String) (b : String) : String :=
  if strTruthy a then a.getD "" else b

/-- JS `a || b` where `a` is a possibly-`undefined` array: every array, even
`[]`, is truthy, so only `undefined` falls through. -/
def jsOrArr {α : Type} (a : Option (List α)) (b : Option (List α)) : Option (List α) :=
  match a with
  | some l => some l
  | none => b

/-- JS `s.toLowerCase()`, modelled as ASCII per-character lowering. -/
def jsToLower (s : String) : String :=
  ⟨s.toList.map Char.toLower⟩

/-- Lexicographic comparison of character lists by code point: the model of
JS string comparison (`<` / default `sort()` order by UTF-16 code units). -/
def charListLe : List Char → List Char → Bool
  | [], _ => true
  | _ :: _, [] => false
  | a :: as, b :: bs =>
    if a.toNat < b.toNat then true
    else if b.toNat < a.toNat then false
    else charListLe as bs

/-- JS string `a <= b` (code-unit lexicographic order). -/
def jsStrLe (a b : String) : Bool :=
  charListLe a.toList b.toList

/-- Auxiliary for `strIncludes`: does `pat` occur as a contiguous run in the
character list? -/
def containsAux (pat : List Char) : List Char → Bool
  | [] => pat.isEmpty
  | c :: rest => pat.isPrefixOf (c :: rest) || containsAux pat rest

/-- JS `s.includes(pat)`: substring test. -/
def strIncludes (s pat : String) : Bool :=
  containsAux pat.toList s.toList

/-- Auxiliary for `removeFirst`: drop the first occurrence of `pat`. -/
def removeFirstAux (pat : List Char) : List Char → List Char
  | [] => []
  | c :: rest =>
    if pat.isPrefixOf (c :: rest) then (c :: rest).drop pat.length
    else c :: removeFirstAux pat rest

/-- JS `s.replace(pat, '')` for a plain (non-regex) pattern: removes the first
occurrence of `pat`, leaves `s` unchanged when `pat` does not occur. -/
def removeFirst (s pat : String) : String :=
  ⟨removeFirstAux pat.toList s.toList⟩

/-! ### Data model (src/types.ts) -/

/-- Structure `JournalConfig` from src/types.ts. -/
structure JournalConfig where
  name : String
  issn : String
  issnElectronic : Option String := none
  publisher : String
  enabled : Bool
  color : Option String := none
deriving DecidableEq, Repr

/-- Structure `Article` from src/types.ts.  `state` is one of the literal strings
`"unseen" | "viewed" | "saved" | "skipped"`, kept as a string as in the
TypeScript union type. -/
structure Article where
  doi : String
  title : String
  authors : List String
  journal : String
  journalIssn : String
  volume : Option String := none
  issue : Option String := none
  pages : Option String := none
  date : String
  year : Int
  abstract : Option String := none
  keywords : Option (List String) := none
  url : String
  openAccessUrl : Option String := none
  state : String
  fetchedAt : String
  viewedAt : Option String := none
  savedAt : Option String := none
  savedPath : Option String := none
deriving DecidableEq, Repr

/-- Structure `FilterConfig` from src/types.ts; the enum-of-string-literals fields are
kept as strings. -/
structure FilterConfig where
  dateRange : String
  customDateFrom : Option String := none
  customDateTo : Option String := none
  journals : List String
  keywords : List String
  searchInAbstracts : Bool
  showState : String
  sortBy : String
deriving DecidableEq, Repr

/-- One entry of `statistics.byJournal` from src/types.ts. -/
structure JournalStat where
  fetched : Nat
  saved : Nat
  skipped : Nat
deriving DecidableEq, Repr

/-- Structure `JournalMonitorData.statistics` from src/types.ts. -/
structure Statistics where
  totalFetched : Nat
  totalSaved : Nat
  totalSkipped : Nat
  byJournal : List (String × JournalStat)
deriving DecidableEq, Repr

/-- Structure `BrowsePosition` from src/types.ts. -/
structure BrowsePosition where
  currentDoi : Option String
  filterHash : String
  scrollIndex : Nat
deriving DecidableEq, Repr

/-- Structure `JournalMonitorData` from src/types.ts (the persisted plugin data blob). -/
structure PluginData where
  version : String
  lastFetch : Option String
  articles : List (String × Article)
  browsePosition : BrowsePosition
  statistics : Statistics
deriving DecidableEq, Repr

/-! ### Filter/sort engine (src/utils.ts, `filterArticles`) -/

/-- Split a character list at `'-'` separators (model of `s.split('-')`,
used to read the parts of a `YYYY-MM-DD` date). -/
def splitDash (l : List Char) : List (List Char) :=
  match l with
  | [] => [[]]
  | c :: rest =>
    match splitDash rest with
    | [] => [[]]
    | h :: t => if c = '-' then [] :: h :: t else (c :: h) :: t

/-- Decimal value of a digit run (model of `Number(part)` for digit strings). -/
def digitsVal (l : List Char) : Nat :=
  l.foldl (fun n c => n * 10 + (c.toNat - 48)) 0

/-- Sort key for a `YYYY-MM-DD` date string: model of `new Date(s).getTime()`.
Strictly monotone in the calendar date, hence it induces the same order. -/
def dateVal (s : String) : Nat :=
  match splitDash s.toList with
  | [y, m, d] => digitsVal y * 10000 + digitsVal m * 100 + digitsVal d
  | _ => 0

/-- Stage 1 of `filterArticles`: `if (filter.showState !== 'all') filtered =
filtered.filter(a => a.state === filter.showState)`. -/
def filterByState (filter : FilterConfig) (articles : List Article) : List Article :=
  if filter.showState ≠ "all" then
    articles.filter (fun a => a.state == filter.showState)
  else articles

/-- Stage 2 of `filterArticles`: journal filter.  The effective ISSN set is
`filter.journals` when non-empty, else the ISSNs of all passed journals. -/
def filterByJournals (filter : FilterConfig) (allJournals : List JournalConfig)
    (articles : List Article) : List Article :=
  let enabledIssns :=
    if filter.journals.length > 0 then filter.journals
    else allJournals.map (·.issn)
  articles.filter (fun a => enabledIssns.contains a.journalIssn)

/-- The search text used by the keyword filter:
``` `${a.title} ${a.abstract || ''} ${(a.keywords || []).join(' ')}`.toLowerCase() ```
when `filter.searchInAbstracts`, else `a.title.toLowerCase()`. -/
def searchTextOf (filter : FilterConfig) (a : Article) : String :=
  if filter.searchInAbstracts then
    jsToLower (a.title ++ " " ++ a.abstract.getD "" ++ " " ++
      String.intercalate " " (a.keywords.getD []))
  else jsToLower a.title

/-- Stage 3 of `filterArticles`: keyword filter, applied only when
`filter.keywords.length > 0`; keeps an article when some lower-cased keyword
is a substring of the search text. -/
def filterByKeywords (filter : FilterConfig) (articles : List Article) : List Article :=
  if filter.keywords.length > 0 then
    let lowerKeywords := filter.keywords.map jsToLower
    articles.filter (fun a => lowerKeywords.any (fun kw => strIncludes (searchTextOf filter a) kw))
  else articles

/-- Stage 4 of `filterArticles`: the `switch (filter.sortBy)` sort.  JS
`Array.prototype.sort` is stable; each numeric comparator `c` becomes the
boolean relation `c a b ≤ 0` fed to the stable `List.mergeSort`.
`localeCompare` is modelled as lexicographic string order. -/
def sortArticles (filter : FilterConfig) (articles : List Article) : List Article :=
  if filter.sortBy = "date-desc" then
    articles.insertionSort (fun a b => dateVal b.date ≤ dateVal a.date)
  else if filter.sortBy = "date-asc" then
    articles.insertionSort (fun a b => dateVal a.date ≤ dateVal b.date)
  else if filter.sortBy = "journal" then
    articles.insertionSort (fun a b => jsStrLe a.journal b.journal = true)
  else articles

/-- Function `filterArticles` from src/utils.ts: state filter, then journal filter,
then keyword filter, then sort.  (`Object.values` on the already-array input
is the identity.) -/
def filterArticles (articles : List Article) (filter : FilterConfig)
    (allJournals : List JournalConfig) : List Article :=
  sortArticles filter
    (filterByKeywords filter
      (filterByJournals filter allJournals
        (filterByState filter articles)))

/-! ### Filter-fingerprint hasher (src/utils.ts, `hashFilterConfig`) -/

/-- JS default `Array.prototype.sort()` on a string array: lexicographic,
modelled with the stable `List.mergeSort` under `≤`. -/
def jsSortStrings (l : List String) : List String :=
  l.insertionSort (fun a b => jsStrLe a b = true)

/-- JSON string escaping (quote and backslash; the plugin's filter fields
contain no control characters). -/
def jsonEscape (s : String) : String :=
  String.join (s.toList.map (fun c =>
    if c = '"' then "\\\"" else if c = '\\' then "\\\\" else String.singleton c))

/-- Serialization `JSON.stringify` of a string. -/
def jsonStr (s : String) : String := "\"" ++ jsonEscape s ++ "\""

/-- Serialization `JSON.stringify` of a string array. -/
def jsonStrArr (l : List String) : String :=
  "[" ++ String.intercalate "," (l.map jsonStr) ++ "]"

/-- Wrap an integer to signed 32-bit (the effect of JS `x & x` / `<<`). -/
def toInt32 (n : Int) : Int := (n + 2 ^ 31) % 2 ^ 32 - 2 ^ 31

/-- One iteration of the hash loop:
`hash = ((hash << 5) - hash) + char; hash = hash & hash;` where `<<` and `&`
act on signed 32-bit values. -/
def hashStep (h : Int) (c : Char) : Int :=
  toInt32 (toInt32 (h * 32) - h + c.toNat)

/-- The character loop of `hashFilterConfig` over the serialized string
(`charCodeAt` is the code point for the BMP text at hand). -/
def hashString (s : String) : Int :=
  s.toList.foldl hashStep 0

/-- Digit character for `Number.prototype.toString(36)`. -/
def base36digit (n : Nat) : Char :=
  if n < 10 then Char.ofNat (48 + n) else Char.ofNat (87 + n)

/-- Base-36 digit loop, fuel-indexed (the fuel `n + 1` in `natToBase36` always
suffices, since a number has at most `n + 1` base-36 digits). -/
def natToBase36Go : Nat → Nat → String
  | 0, _ => ""
  | fuel + 1, n =>
    if n < 36 then String.singleton (base36digit n)
    else natToBase36Go fuel (n / 36) ++ String.singleton (base36digit (n % 36))

/-- Base-36 digits of a natural number (JS `toString(36)` for non-negatives). -/
def natToBase36 (n : Nat) : String :=
  natToBase36Go (n + 1) n

/-- JS `Number.prototype.toString(36)` for integers. -/
def intToBase36 (n : Int) : String :=
  if n < 0 then "-" ++ natToBase36 n.natAbs else natToBase36 n.natAbs

/-- The `JSON.stringify({...})` serialization inside `hashFilterConfig`:
object-literal key order, `undefined` fields omitted, `journals` and
`keywords` sorted first (note: `searchInAbstracts` is not serialized). -/
def serializeFilter (filter : FilterConfig) : String :=
  "\x7b\"dateRange\":" ++ jsonStr filter.dateRange
    ++ (match filter.customDateFrom with
        | some s => ",\"customDateFrom\":" ++ jsonStr s
        | none => "")
    ++ (match filter.customDateTo with
        | some s => ",\"customDateTo\":" ++ jsonStr s
        | none => "")
    ++ ",\"journals\":" ++ jsonStrArr (jsSortStrings filter.journals)
    ++ ",\"keywords\":" ++ jsonStrArr (jsSortStrings filter.keywords)
    ++ ",\"showState\":" ++ jsonStr filter.showState
    ++ ",\"sortBy\":" ++ jsonStr filter.sortBy
    ++ "\x7d"

/-- Function `hashFilterConfig` from src/utils.ts: serialize (with sorted set-valued
fields), run the 32-bit character hash, render in base 36. -/
def hashFilterConfig (filter : FilterConfig) : String :=
  intToBase36 (hashString (serializeFilter filter))

/-! ### Abstract reconstructor (src/api.ts, `reconstructAbstract`) -/

/-- The push loop of `reconstructAbstract`: flatten the inverted index
(`Object.entries` order) to `(word, position)` pairs. -/
def flattenIndex (idx : List (String × List Nat)) : List (String × Nat) :=
  idx.flatMap (fun p => p.2.map (fun pos => (p.1, pos)))

/-- Function `reconstructAbstract` from src/api.ts: `undefined` in, `undefined` out;
otherwise flatten, stable-sort ascending by position
(`words.sort((a, b) => a[1] - b[1])`, a stable sort), project to words,
`join(' ')`. -/
def reconstructAbstract (invertedIndex : Option (List (String × List Nat))) :
    Option String :=
  match invertedIndex with
  | none => none
  | some idx =>
    let words := flattenIndex idx
    let sorted := words.insertionSort (fun a b => a.2 ≤ b.2)
    some (String.intercalate " " (sorted.map (·.1)))

/-! ### OpenAlex source adapter (src/api.ts) -/

/-- The `author` object inside an OpenAlex authorship. -/
structure OAAuthor where
  display_name : String
deriving DecidableEq, Repr

/-- One entry of `OpenAlexWork.authorships`. -/
structure OAAuthorship where
  author : OAAuthor
  author_position : String
deriving DecidableEq, Repr

/-- One entry of `OpenAlexWork.concepts`; the float relevance score is
modelled as a rational. -/
structure OAConcept where
  display_name : String
  score : Rat
deriving DecidableEq, Repr

/-- One entry of `OpenAlexWork.topics`. -/
structure OATopic where
  display_name : String
  score : Rat
deriving DecidableEq, Repr

/-- One entry of `OpenAlexWork.keywords`. -/
structure OAKeyword where
  keyword : String
deriving DecidableEq, Repr

/-- Structure `OpenAlexWork.biblio`. -/
structure OABiblio where
  volume : Option String := none
  issue : Option String := none
  first_page : Option String := none
  last_page : Option String := none
deriving DecidableEq, Repr

/-- Structure `OpenAlexWork.open_access`. -/
structure OAOpenAccess where
  oa_url : Option String := none
deriving DecidableEq, Repr

/-- Structure `OpenAlexWork` from src/types.ts, restricted to the fields the adapter
reads.  Fields the adapter guards with `||` or `?.` are `Option`s. -/
structure OpenAlexWork where
  doi : Option String := none
  title : Option String := none
  display_name : Option String := none
  publication_date : Option String := none
  publication_year : Option Int := none
  authorships : Option (List OAAuthorship) := none
  abstract_inverted_index : Option (List (String × List Nat)) := none
  keywords : Option (List OAKeyword) := none
  biblio : Option OABiblio := none
  open_access : Option OAOpenAccess := none
  concepts : Option (List OAConcept) := none
  topics : Option (List OATopic) := none
deriving DecidableEq, Repr

/-- The rank a position tag gets in `formatOpenAlexAuthors`'s comparator:
`order[pos] || 1` with `order = { first: 0, middle: 1, last: 2 }`.  Note the
JS `||`: `order['first']` is `0`, which is falsy, so `'first'` ranks as `1`
exactly like `'middle'` and unknown tags. -/
def authorRank (pos : String) : Nat :=
  jsOrNat
    (if pos = "first" then some 0
     else if pos = "middle" then some 1
     else if pos = "last" then some 2
     else none) 1

/-- Function `formatOpenAlexAuthors` from src/api.ts: stable sort of the authorships by
`authorRank`, then project display names. -/
def formatOpenAlexAuthors (authorships : List OAAuthorship) : List String :=
  (authorships.insertionSort
    (fun a b => authorRank a.author_position ≤ authorRank b.author_position)).map
    (fun a => a.author.display_name)

/-- The keyword extraction chain of `openAlexToArticle`:
`concepts?.filter(>0.3)?.slice(0,8)?.map(name) || topics?... || keywords?.map || []`.
Each `||` falls through only on `undefined`; a present-but-empty array is
truthy and stops the chain. -/
def extractedKeywords (work : OpenAlexWork) : List String :=
  (jsOrArr
    (work.concepts.map (fun cs =>
      ((cs.filter (fun c => decide ((0.3 : Rat) < c.score))).take 8).map
        (fun c => c.display_name)))
    (jsOrArr
      (work.topics.map (fun ts =>
        ((ts.filter (fun t => decide ((0.3 : Rat) < t.score))).take 8).map
          (fun t => t.display_name)))
      (work.keywords.map (fun ks => ks.map (fun k => k.keyword))))).getD []

/-- Function `openAlexToArticle` from src/api.ts, parameterized by the current date
string, current year and current ISO timestamp that the source reads from
`new Date()`.  Returns `none` exactly when `work.doi` is falsy. -/
def openAlexToArticle (work : OpenAlexWork) (journalName journalIssn : String)
    (nowDate : String) (nowYear : Int) (nowISO : String) : Option Article :=
  if ¬ strTruthy work.doi then none
  else
    let doi := removeFirst (work.doi.getD "") "https://doi.org/"
    some {
      doi := doi
      title := jsOrStr work.display_name (jsOrStr work.title "Untitled")
      authors := formatOpenAlexAuthors (work.authorships.getD [])
      journal := journalName
      journalIssn := journalIssn
      volume := work.biblio.bind (·.volume)
      issue := work.biblio.bind (·.issue)
      pages :=
        if strTruthy (work.biblio.bind (·.first_page)) &&
           strTruthy (work.biblio.bind (·.last_page)) then
          some ((work.biblio.bind (·.first_page)).getD "" ++ "-" ++
                (work.biblio.bind (·.last_page)).getD "")
        else work.biblio.bind (·.first_page)
      date := jsOrStr work.publication_date nowDate
      year := jsOrInt work.publication_year nowYear
      abstract := reconstructAbstract work.abstract_inverted_index
      keywords := some (extractedKeywords work)
      url := "https://doi.org/" ++ doi
      openAccessUrl := work.open_access.bind (·.oa_url)
      state := "unseen"
      fetchedAt := nowISO
    }

/-! ### Sync engine (main.ts, `fetchArticles` per-journal merge loop) -/

/-- The local accumulator state of the `fetchArticles` loop: the persisted
data plus the `newArticleCount` and `totalFetched` local counters. -/
structure SyncState where
  data : PluginData
  newArticleCount : Nat
  totalFetched : Nat
deriving DecidableEq, Repr

/-- The body of `for (const article of articles)` in `fetchArticles`: insert
only when `!this.data.articles[article.doi]`, bump `newArticleCount` and the
per-journal `fetched` counter (initializing the journal's stats entry to
zeros when absent). -/
def insertFetched (issn : String) (st : SyncState) (article : Article) : SyncState :=
  if (jsGet st.data.articles article.doi).isNone then
    let d := { st.data with articles := jsSet st.data.articles article.doi article }
    let bj := d.statistics.byJournal
    let bj := if (jsGet bj issn).isNone then jsSet bj issn ⟨0, 0, 0⟩ else bj
    let cur := (jsGet bj issn).getD ⟨0, 0, 0⟩
    let bj := jsSet bj issn { cur with fetched := cur.fetched + 1 }
    { st with
        data := { d with statistics := { d.statistics with byJournal := bj } }
        newArticleCount := st.newArticleCount + 1 }
  else st

/-- One iteration of the per-journal loop of `fetchArticles`, with the
adapter call's outcome made explicit: a thrown error is caught by the
`try/catch` surrounding the body and leaves the state untouched; a successful
fetch adds to `totalFetched` and merges each article. -/
def fetchJournalStep (st : SyncState) (journal : JournalConfig)
    (res : Except Unit (List Article)) : SyncState :=
  match res with
  | .error _ => st
  | .ok articles =>
    let st := { st with totalFetched := st.totalFetched + articles.length }
    articles.foldl (insertFetched journal.issn) st

/-- The whole per-journal loop of `fetchArticles` (main.ts lines 271–311),
over a given journal sequence, with the per-journal fetch outcomes supplied
by `adapter`.  Total by construction: no error escapes the loop. -/
def fetchArticlesLoop (adapter : JournalConfig → Except Unit (List Article))
    (journals : List JournalConfig) (st : SyncState) : SyncState :=
  journals.foldl (fun st j => fetchJournalStep st j (adapter j)) st

/-- Function `fetchArticles` (main.ts) after the early-return guard: filter to enabled
journals, run the merge loop from zeroed counters, then set `lastFetch` and
add `newArticleCount` to the persisted `totalFetched` statistic.  The
abstract-backfill pass (which touches only missing `abstract` fields of
articles fetched this cycle) and the UI notices are not modelled.  Returns
the updated data and the final `newArticleCount`. -/
def fetchArticles (adapter : JournalConfig → Except Unit (List Article))
    (journals : List JournalConfig) (nowISO : String) (d : PluginData) :
    PluginData × Nat :=
  let enabled := journals.filter (·.enabled)
  let st := fetchArticlesLoop adapter enabled ⟨d, 0, 0⟩
  let d' := { st.data with
      lastFetch := some nowISO
      statistics := { st.data.statistics with
        totalFetched := st.data.statistics.totalFetched + st.newArticleCount } }
  (d', st.newArticleCount)

/-! ### Browse state transitions (src/views/BrowseView.ts) -/

/-- Method `BrowseView.saveArticle`, with the awaited `saveArticleNote` outcome made
explicit.  When the note writer throws, control jumps to the `catch` block
(which only logs and shows a notice), so the article and the data are
returned unchanged; on success every mutation of the source runs: set
`state/savedAt/savedPath`, store the record, bump `totalSaved` and the
per-journal `saved` counter (initializing the entry to zeros when absent).
The list-splice/re-render UI steps are not modelled. -/
def BrowseView.saveArticle (noteResult : Except Unit String) (now : String)
    (article : Article) (d : PluginData) : Article × PluginData :=
  match noteResult with
  | .error _ => (article, d)
  | .ok path =>
    let article := { article with state := "saved", savedAt := some now, savedPath := some path }
    let d := { d with articles := jsSet d.articles article.doi article }
    let d := { d with statistics := { d.statistics with totalSaved := d.statistics.totalSaved + 1 } }
    let bj := d.statistics.byJournal
    let bj := if (jsGet bj article.journalIssn).isNone then jsSet bj article.journalIssn ⟨0, 0, 0⟩ else bj
    let cur := (jsGet bj article.journalIssn).getD ⟨0, 0, 0⟩
    let bj := jsSet bj article.journalIssn { cur with saved := cur.saved + 1 }
    (article, { d with statistics := { d.statistics with byJournal := bj } })

/-- Method `BrowseView.skipArticle`: set `state` (no timestamp is written), store the
record, bump `totalSkipped` and the per-journal `skipped` counter.  The
index-advance/re-render UI steps are not modelled. -/
def BrowseView.skipArticle (article : Article) (d : PluginData) : Article × PluginData :=
  let article := { article with state := "skipped" }
  let d := { d with articles := jsSet d.articles article.doi article }
  let d := { d with statistics := { d.statistics with totalSkipped := d.statistics.totalSkipped + 1 } }
  let bj := d.statistics.byJournal
  let bj := if (jsGet bj article.journalIssn).isNone then jsSet bj article.journalIssn ⟨0, 0, 0⟩ else bj
  let cur := (jsGet bj article.journalIssn).getD ⟨0, 0, 0⟩
  let bj := jsSet bj article.journalIssn { cur with skipped := cur.skipped + 1 }
  (article, { d with statistics := { d.statistics with byJournal := bj } })

/-! ### Lemmas about the JS object model -/

theorem jsGet_set_self {α : Type} (m : List (String × α)) (k : String) (v : α) :
    jsGet (jsSet m k v) k = some v := by
  induction m with
  | nil => simp [jsSet, jsGet]
  | cons hd tl ih =>
    by_cases h : hd.1 = k
    · simp [jsSet, h, jsGet, List.find?_cons]
    · simpa [jsSet, h, jsGet, List.find?_cons] using ih

theorem jsGet_set_ne {α : Type} (m : List (String × α)) (k k' : String) (v : α)
    (h : k' ≠ k) : jsGet (jsSet m k v) k' = jsGet m k' := by
  induction m with
  | nil => simp [jsSet, jsGet, List.find?_cons, beq_iff_eq, Ne.symm h]
  | cons hd tl ih =>
    by_cases hk : hd.1 = k
    · subst hk
      simp [jsSet, jsGet, List.find?_cons, beq_iff_eq, Ne.symm h, h]
    · by_cases hk' : hd.1 = k'
      · simp [jsSet, hk, jsGet, List.find?_cons, beq_iff_eq, hk', Ne.symm h, h]
      · simpa [jsSet, hk, jsGet, List.find?_cons, beq_iff_eq, hk'] using ih

/-! ### Claims -/

/-- C10: the save action is atomic with respect to note-writer failure — when
`saveArticleNote` rejects, control reaches only the `catch` block of
`BrowseView.saveArticle` (which logs), so the article record and the
statistics are returned exactly as they were: every mutation in the source
occurs only after the awaited persist call resolves. -/
theorem c10_save_failure_leaves_state_unchanged (e : Unit) (now : String)
    (a : Article) (d : PluginData) :
    BrowseView.saveArticle (Except.error e) now a d = (a, d) := rfl

/-- C5 (evaluation at the failing input): with a `'middle'`-tagged author
listed before a `'first'`-tagged author, `formatOpenAlexAuthors` keeps the
middle author first, because `order['first']` is `0` and the JS `|| 1`
default turns the falsy `0` into `1`, ranking `'first'` the same as
`'middle'`; the claimed order `["F", "M"]` is not produced. -/
theorem c5_first_tag_ranks_as_middle :
    formatOpenAlexAuthors
      [⟨⟨"M"⟩, "middle"⟩, ⟨⟨"F"⟩, "first"⟩] = ["M", "F"] ∧
    authorRank "first" = authorRank "middle" := by decide

/-- C4 counterexample: a present but empty inverted index does not yield
`undefined` — the sort/join pipeline runs on the empty pair list and
`[].join(' ')` is `""`, so `reconstructAbstract` returns the empty string. -/
theorem c4_empty_index_returns_empty_string :
    reconstructAbstract (some ([] : List (String × List Nat))) = some "" ∧
    reconstructAbstract (some ([] : List (String × List Nat))) ≠ none := by
  decide

/-- C4 (amended): `reconstructAbstract` returns `undefined` when the
inverted-index argument is absent; for an empty index containing no words it
returns the empty string (a defined, empty abstract), not `undefined`. -/
theorem c4_degenerate_cases :
    reconstructAbstract none = none ∧
    reconstructAbstract (some ([] : List (String × List Nat))) = some "" := by
  decide

/-- C3: for every inverted index, `reconstructAbstract` returns the flattened
`(word, position)` pairs sorted ascending by position, projected to words and
joined by single spaces; in particular `{"the":[0],"quick":[1],"fox":[2]}`
reconstructs to `"the quick fox"`. -/
theorem c3_reconstruct_sorts_by_position :
    (∀ idx : List (String × List Nat),
      ∃ l : List (String × Nat),
        l.Perm (flattenIndex idx) ∧
        l.Pairwise (fun p q => p.2 ≤ q.2) ∧
        reconstructAbstract (some idx) =
          some (String.intercalate " " (l.map Prod.fst))) ∧
    reconstructAbstract (some [("the", [0]), ("quick", [1]), ("fox", [2])]) =
      some "the quick fox" := by
  constructor
  · intro idx
    haveI : IsTotal (String × Nat) (fun p q => p.2 ≤ q.2) :=
      ⟨fun a b => Nat.le_total a.2 b.2⟩
    haveI : IsTrans (String × Nat) (fun p q => p.2 ≤ q.2) :=
      ⟨fun _ _ _ => Nat.le_trans⟩
    exact ⟨(flattenIndex idx).insertionSort (fun p q => p.2 ≤ q.2),
      List.perm_insertionSort _ _, List.sorted_insertionSort _ _, rfl⟩
  · decide

/-! ### Order properties of the JS string comparison, for C8 -/

theorem charListLe_total : ∀ a b : List Char,
    charListLe a b = true ∨ charListLe b a = true := by
  intro a
  induction a with
  | nil => intro b; left; rfl
  | cons x xs ih =>
    intro b
    cases b with
    | nil => right; rfl
    | cons y ys =>
      by_cases h1 : x.toNat < y.toNat
      · left; simp [charListLe, h1]
      · by_cases h2 : y.toNat < x.toNat
        · right; simp [charListLe, h2]
        · rcases ih ys with h | h
          · left; simp [charListLe, h1, h2, h]
          · right; simp [charListLe, h1, h2, h]

theorem charListLe_trans : ∀ a b c : List Char,
    charListLe a b = true → charListLe b c = true → charListLe a c = true := by
  intro a
  induction a with
  | nil => intro b c _ _; rfl
  | cons x xs ih =>
    intro b c hab hbc
    cases b with
    | nil => simp [charListLe] at hab
    | cons y ys =>
      cases c with
      | nil => simp [charListLe] at hbc
      | cons z zs =>
        simp only [charListLe] at hab hbc ⊢
        split at hab
        next hxy =>
          split at hbc
          next hyz => rw [if_pos (by omega)]
          next hyz =>
            split at hbc
            next hzy => simp at hbc
            next hzy => rw [if_pos (by omega)]
        next hxy =>
          split at hab
          next hyx => simp at hab
          next hyx =>
            split at hbc
            next hyz => rw [if_pos (by omega)]
            next hyz =>
              split at hbc
              next hzy => simp at hbc
              next hzy =>
                rw [if_neg (by omega), if_neg (by omega)]
                exact ih ys zs hab hbc

theorem charListLe_antisymm : ∀ a b : List Char,
    charListLe a b = true → charListLe b a = true → a = b := by
  intro a
  induction a with
  | nil =>
    intro b _ hba
    cases b with
    | nil => rfl
    | cons y ys => simp [charListLe] at hba
  | cons x xs ih =>
    intro b hab hba
    cases b with
    | nil => simp [charListLe] at hab
    | cons y ys =>
      simp only [charListLe] at hab hba
      by_cases hxy : x.toNat < y.toNat
      · simp [hxy] at hba
        omega
      · by_cases hyx : y.toNat < x.toNat
        · simp [hxy, hyx] at hab
        · have hx : x = y := by
            have hn : x.toNat = y.toNat := by omega
            calc x = Char.ofNat x.toNat := (Char.ofNat_toNat x).symm
              _ = Char.ofNat y.toNat := by rw [hn]
              _ = y := Char.ofNat_toNat y
          simp [hxy, hyx] at hab hba
          rw [hx, ih ys hab hba]

/-- Permutations of a string list have equal JS sorts: the comparison is a
total order, so the sorted result is determined by the multiset of elements. -/
theorem jsSortStrings_perm_congr {l1 l2 : List String} (h : l1.Perm l2) :
    jsSortStrings l1 = jsSortStrings l2 := by
  haveI : IsTotal String (fun a b => jsStrLe a b = true) :=
    ⟨fun a b => charListLe_total a.toList b.toList⟩
  haveI : IsTrans String (fun a b => jsStrLe a b = true) :=
    ⟨fun a b c => charListLe_trans a.toList b.toList c.toList⟩
  haveI : IsAntisymm String (fun a b => jsStrLe a b = true) :=
    ⟨fun a b hab hba =>
      String.toList_inj.mp (charListLe_antisymm a.toList b.toList hab hba)⟩
  exact List.eq_of_perm_of_sorted
    ((List.perm_insertionSort _ l1).trans (h.trans (List.perm_insertionSort _ l2).symm))
    (List.sorted_insertionSort _ l1)
    (List.sorted_insertionSort _ l2)

/-- C8: `hashFilterConfig` is invariant under permutation of its set-valued
fields — two configs equal except for the order of their journal-key and
keyword arrays hash identically, because both arrays are sorted before
serialization. -/
theorem c8_hash_order_invariant (f1 f2 : FilterConfig)
    (hj : f1.journals.Perm f2.journals) (hk : f1.keywords.Perm f2.keywords)
    (h1 : f1.dateRange = f2.dateRange)
    (h2 : f1.customDateFrom = f2.customDateFrom)
    (h3 : f1.customDateTo = f2.customDateTo)
    (_h4 : f1.searchInAbstracts = f2.searchInAbstracts)
    (h5 : f1.showState = f2.showState)
    (h6 : f1.sortBy = f2.sortBy) :
    hashFilterConfig f1 = hashFilterConfig f2 := by
  unfold hashFilterConfig serializeFilter
  rw [jsSortStrings_perm_congr hj, jsSortStrings_perm_congr hk, h1, h2, h3, h5, h6]

/-- C8 witness: the permuted concrete configs of the spec's example hash
equally. -/
theorem c8_witness :
    hashFilterConfig ⟨"month", none, none, ["A", "B"], ["x", "y"], true, "unseen", "date-desc"⟩ =
    hashFilterConfig ⟨"month", none, none, ["B", "A"], ["y", "x"], true, "unseen", "date-desc"⟩ :=
  c8_hash_order_invariant _ _ (List.Perm.swap "B" "A" []) (List.Perm.swap "y" "x" [])
    rfl rfl rfl rfl rfl rfl

/-! ### C2: keyword filter scope -/

/-- The spec's scenario article: title "Forest", abstract "biomass lidar". -/
def forestArticle : Article :=
  { doi := "10.1/forest", title := "Forest", authors := ["A"], journal := "J"
    journalIssn := "1111-2222", date := "2024-01-01", year := 2024
    abstract := some "biomass lidar", keywords := some []
    url := "https://doi.org/10.1/forest", state := "unseen", fetchedAt := "t" }

/-- The journal of the scenario article, enabled. -/
def forestJournal : JournalConfig :=
  { name := "J", issn := "1111-2222", publisher := "P", enabled := true }

/-- Scenario filter: `keywords=["lidar"]`, title-only scope. -/
def titleOnlyFilter : FilterConfig :=
  { dateRange := "month", journals := [], keywords := ["lidar"]
    searchInAbstracts := false, showState := "all", sortBy := "date-desc" }

/-- Scenario filter: same keywords, title-and-abstract-and-keywords scope. -/
def fullScopeFilter : FilterConfig :=
  { titleOnlyFilter with searchInAbstracts := true }

/-- C2: with a non-empty keyword list, the keyword stage of `filterArticles`
keeps an article iff some keyword occurs case-insensitively as a substring of
the search text (title alone under title-only scope, else title ++ abstract
++ keyword list); and the "Forest"/"biomass lidar" article is excluded by
`keywords=["lidar"]` under title-only scope but included under full scope. -/
theorem c2_keyword_filter_scope :
    (∀ (filter : FilterConfig) (articles : List Article) (a : Article),
      filter.keywords ≠ [] →
      (a ∈ filterByKeywords filter articles ↔
        a ∈ articles ∧ ∃ kw ∈ filter.keywords,
          strIncludes (searchTextOf filter a) (jsToLower kw) = true)) ∧
    forestArticle ∉ filterArticles [forestArticle] titleOnlyFilter [forestJournal] ∧
    forestArticle ∈ filterArticles [forestArticle] fullScopeFilter [forestJournal] := by
  refine ⟨?_, by decide, by decide⟩
  intro filter articles a hk
  unfold filterByKeywords
  rw [if_pos (List.length_pos.mpr hk)]
  simp only [List.mem_filter, List.any_eq_true, List.mem_map]
  constructor
  · rintro ⟨ha, _, ⟨kw, hkw, rfl⟩, hinc⟩
    exact ⟨ha, kw, hkw, hinc⟩
  · rintro ⟨ha, kw, hkw, hinc⟩
    exact ⟨ha, jsToLower kw, ⟨kw, hkw, rfl⟩, hinc⟩

/-- C2 witness: the scenario article passes the keyword stage under full
scope, via the general characterization at a concrete input. -/
theorem c2_witness :
    forestArticle ∈ filterByKeywords fullScopeFilter [forestArticle] :=
  (c2_keyword_filter_scope.1 fullScopeFilter [forestArticle] forestArticle
    (by decide)).2 ⟨by decide, ⟨"lidar", by decide, by decide⟩⟩

/-! ### C6: keyword extraction preference chain -/

/-- Counterexample work for C6: `concepts` is present but nothing scores
above 0.3, while a topic scores 0.9. -/
def c6Work : OpenAlexWork :=
  { doi := some "10.1/x"
    concepts := some [⟨"lowconcept", (0.1 : Rat)⟩]
    topics := some [⟨"hightopic", (0.9 : Rat)⟩] }

/-- The preference chain as the claim reads it (fall through to the next
source whenever the previous one yields no entries), stated for comparison
with the source's `extractedKeywords`. -/
def claimedKeywordsC6 (work : OpenAlexWork) : List String :=
  let c := (((work.concepts.getD []).filter
    (fun c => decide ((0.3 : Rat) < c.score))).take 8).map OAConcept.display_name
  if c ≠ [] then c
  else
    let t := (((work.topics.getD []).filter
      (fun t => decide ((0.3 : Rat) < t.score))).take 8).map OATopic.display_name
    if t ≠ [] then t
    else (work.keywords.getD []).map OAKeyword.keyword

/-- C6 counterexample: on a work whose `concepts` field is present but yields
no entry above 0.3 while a topic scores above 0.3, `openAlexToArticle`
produces the empty keyword list — a present-but-empty concept array is
truthy in JS, so the `||` chain never reaches the topics — refuting the
claimed fall-through to topics. -/
theorem c6_counterexample :
    (openAlexToArticle c6Work "J" "1111-2222" "2026-01-01" 2026 "T").map
      Article.keywords = some (some []) ∧
    claimedKeywordsC6 c6Work = ["hightopic"] ∧
    (openAlexToArticle c6Work "J" "1111-2222" "2026-01-01" 2026 "T").map
      Article.keywords ≠ some (some (claimedKeywordsC6 c6Work)) := by
  have h1 : ¬ ((0.3 : Rat) < (0.1 : Rat)) := by norm_num
  have h2 : (0.3 : Rat) < (0.9 : Rat) := by norm_num
  have hart : (openAlexToArticle c6Work "J" "1111-2222" "2026-01-01" 2026 "T").map
      Article.keywords = some (some []) := by
    unfold openAlexToArticle
    rw [if_neg (not_not_intro (by decide : strTruthy c6Work.doi = true))]
    simp [extractedKeywords, c6Work, jsOrArr, decide_eq_false h1]
  have hclaim : claimedKeywordsC6 c6Work = ["hightopic"] := by
    simp [claimedKeywordsC6, c6Work, decide_eq_false h1, decide_eq_true h2]
  refine ⟨hart, hclaim, ?_⟩
  rw [hart, hclaim]
  simp

/-- C6 (amended): `openAlexToArticle` extracts keywords by field presence,
not by emptiness of the filtered result — when `concepts` is present the
keywords are the display names of concepts scoring strictly above 0.3 capped
at 8 (possibly empty, with no fallback); only when `concepts` is absent are
`topics` used the same way (again with no fallback once present); only when
both are absent is the raw keyword list used; else the list is empty. -/
theorem c6_keyword_chain (work : OpenAlexWork) (jn ji nd : String) (ny : Int)
    (niso : String) (h : strTruthy work.doi = true) :
    (openAlexToArticle work jn ji nd ny niso).map Article.keywords =
      some (some (match work.concepts, work.topics, work.keywords with
        | some cs, _, _ =>
          ((cs.filter (fun c => decide ((0.3 : Rat) < c.score))).take 8).map
            OAConcept.display_name
        | none, some ts, _ =>
          ((ts.filter (fun t => decide ((0.3 : Rat) < t.score))).take 8).map
            OATopic.display_name
        | none, none, some ks => ks.map OAKeyword.keyword
        | none, none, none => [])) := by
  unfold openAlexToArticle
  rw [if_neg (not_not_intro h)]
  have hkw : extractedKeywords work =
      (match work.concepts, work.topics, work.keywords with
        | some cs, _, _ =>
          ((cs.filter (fun c => decide ((0.3 : Rat) < c.score))).take 8).map
            OAConcept.display_name
        | none, some ts, _ =>
          ((ts.filter (fun t => decide ((0.3 : Rat) < t.score))).take 8).map
            OATopic.display_name
        | none, none, some ks => ks.map OAKeyword.keyword
        | none, none, none => []) := by
    unfold extractedKeywords
    rcases work.concepts with _ | cs <;>
      rcases work.topics with _ | ts <;>
        rcases work.keywords with _ | ks <;>
          simp [jsOrArr]
  simp [hkw]

/-- C6 witness: the amended chain evaluated at the concrete counterexample
work (concepts present ⇒ no fallback, empty result). -/
theorem c6_witness :
    (openAlexToArticle c6Work "J" "1111-2222" "2026-01-01" 2026 "T").map
      Article.keywords = some (some []) := by
  have h1 : ¬ ((0.3 : Rat) < (0.1 : Rat)) := by norm_num
  exact (c6_keyword_chain c6Work "J" "1111-2222" "2026-01-01" 2026 "T"
    (by decide)).trans (by simp [c6Work, decide_eq_false h1])

/-! ### C7: per-journal failures do not abort the sync -/

/-- Whether the adapter call for a journal succeeds. -/
def fetchOk (adapter : JournalConfig → Except Unit (List Article))
    (j : JournalConfig) : Bool :=
  match adapter j with
  | .ok _ => true
  | .error _ => false

/-- A sample article for the concrete sync scenarios. -/
def mkSyncArticle (doi issn : String) : Article :=
  { doi := doi, title := "T", authors := [], journal := "J", journalIssn := issn
    date := "2024-01-01", year := 2024, url := "u", state := "unseen"
    fetchedAt := "t" }

/-- A sample enabled journal subscription. -/
def mkSyncJournal (n i : String) : JournalConfig :=
  { name := n, issn := i, publisher := "P", enabled := true }

/-- The fresh `DEFAULT_DATA` persisted blob. -/
def emptyData : PluginData :=
  { version := "1.0.0", lastFetch := none, articles := []
    browsePosition := ⟨none, "", 0⟩, statistics := ⟨0, 0, 0, []⟩ }

/-- The spec's partial-failure scenario adapter: journal 2 throws, journals 1
and 3 each return one article. -/
def syncAdapter3 : JournalConfig → Except Unit (List Article) := fun j =>
  if j.issn = "I2" then .error ()
  else if j.issn = "I1" then .ok [mkSyncArticle "10.1/a1" "I1"]
  else .ok [mkSyncArticle "10.1/a3" "I3"]

/-- C7: an error raised while fetching one journal is absorbed by the
per-journal `try/catch` (the loop state is a total function of the adapter
outcomes — no exception propagates), and the loop behaves exactly as if the
failing journals were not in the list, so the final `newArticleCount`
reflects only the journals that succeeded; concretely, with journal 2 of 3
throwing, the count is 2 — the articles of journals 1 and 3 — identical to
running over journals 1 and 3 alone. -/
theorem c7_partial_sync_failure :
    (∀ (adapter : JournalConfig → Except Unit (List Article))
       (journals : List JournalConfig) (st : SyncState),
      fetchArticlesLoop adapter journals st =
        fetchArticlesLoop adapter (journals.filter (fetchOk adapter)) st) ∧
    (fetchArticlesLoop syncAdapter3
      [mkSyncJournal "J1" "I1", mkSyncJournal "J2" "I2", mkSyncJournal "J3" "I3"]
      ⟨emptyData, 0, 0⟩).newArticleCount = 2 ∧
    fetchArticlesLoop syncAdapter3
      [mkSyncJournal "J1" "I1", mkSyncJournal "J2" "I2", mkSyncJournal "J3" "I3"]
      ⟨emptyData, 0, 0⟩ =
    fetchArticlesLoop syncAdapter3
      [mkSyncJournal "J1" "I1", mkSyncJournal "J3" "I3"] ⟨emptyData, 0, 0⟩ := by
  refine ⟨?_, by decide, by decide⟩
  intro adapter journals
  induction journals with
  | nil => intro st; rfl
  | cons j js ih =>
    intro st
    have hstep : fetchArticlesLoop adapter (j :: js) st =
        fetchArticlesLoop adapter js (fetchJournalStep st j (adapter j)) := rfl
    rw [hstep, List.filter_cons]
    cases h : adapter j with
    | ok arts =>
      have hok : fetchOk adapter j = true := by simp [fetchOk, h]
      rw [if_pos hok]
      have hstep2 : fetchArticlesLoop adapter (j :: js.filter (fetchOk adapter)) st =
          fetchArticlesLoop adapter (js.filter (fetchOk adapter))
            (fetchJournalStep st j (adapter j)) := rfl
      rw [hstep2, ← ih, h]
    | error e =>
      have hok : ¬ fetchOk adapter j = true := by simp [fetchOk, h]
      rw [if_neg hok]
      rw [show fetchJournalStep st j (Except.error e) = st from rfl, ih]

/-! ### C1: the sync merge never overwrites an existing record -/

theorem insertFetched_preserves {issn : String} {st : SyncState} {a : Article}
    {doi : String} {v : Article} (h : jsGet st.data.articles doi = some v) :
    jsGet (insertFetched issn st a).data.articles doi = some v := by
  unfold insertFetched
  by_cases hnew : (jsGet st.data.articles a.doi).isNone
  · rw [if_pos hnew]
    have hne : doi ≠ a.doi := by
      intro e
      rw [← e, h] at hnew
      simp at hnew
    show jsGet (jsSet st.data.articles a.doi a) doi = some v
    rw [jsGet_set_ne _ _ _ _ hne]
    exact h
  · rw [if_neg hnew]
    exact h

theorem insertFetched_absent {issn : String} {st : SyncState} {a : Article}
    {doi : String} (h : jsGet st.data.articles doi = none) (hne : a.doi ≠ doi) :
    jsGet (insertFetched issn st a).data.articles doi = none := by
  unfold insertFetched
  by_cases hnew : (jsGet st.data.articles a.doi).isNone
  · rw [if_pos hnew]
    show jsGet (jsSet st.data.articles a.doi a) doi = none
    rw [jsGet_set_ne _ _ _ _ (Ne.symm hne)]
    exact h
  · rw [if_neg hnew]
    exact h

theorem foldl_insertFetched_preserves (issn : String) (arts : List Article) :
    ∀ (st : SyncState) {doi : String} {v : Article},
      jsGet st.data.articles doi = some v →
      jsGet (arts.foldl (insertFetched issn) st).data.articles doi = some v := by
  induction arts with
  | nil => intro st doi v h; exact h
  | cons a l ih =>
    intro st doi v h
    exact ih _ (insertFetched_preserves h)

theorem foldl_insertFetched_absent (issn : String) (arts : List Article) :
    ∀ (st : SyncState) {doi : String},
      jsGet st.data.articles doi = none →
      doi ∉ arts.map Article.doi →
      jsGet (arts.foldl (insertFetched issn) st).data.articles doi = none := by
  induction arts with
  | nil => intro st doi h _; exact h
  | cons a l ih =>
    intro st doi h hmem
    simp only [List.map_cons, List.mem_cons, not_or] at hmem
    exact ih _ (insertFetched_absent h (fun e => hmem.1 e.symm)) hmem.2

theorem fetchJournalStep_preserves {st : SyncState} {j : JournalConfig}
    {res : Except Unit (List Article)} {doi : String} {v : Article}
    (h : jsGet st.data.articles doi = some v) :
    jsGet (fetchJournalStep st j res).data.articles doi = some v := by
  cases res with
  | error e => exact h
  | ok arts => exact foldl_insertFetched_preserves _ _ _ h

theorem fetchJournalStep_absent {st : SyncState} {j : JournalConfig}
    {res : Except Unit (List Article)} {doi : String}
    (h : jsGet st.data.articles doi = none)
    (hmem : ∀ arts, res = Except.ok arts → doi ∉ arts.map Article.doi) :
    jsGet (fetchJournalStep st j res).data.articles doi = none := by
  cases res with
  | error e => exact h
  | ok arts => exact foldl_insertFetched_absent _ _ _ h (hmem arts rfl)

/-- C1: through the whole merge loop of `fetchArticles`, a persisted record
whose identifier is already a key of the collection is left exactly as it was
(state, timestamps, saved location — the entire record is unchanged), and an
identifier absent before the merge and not among the fetched identifiers is
still absent afterwards: only net-new identifiers are inserted. -/
theorem c1_merge_never_overwrites :
    (∀ (adapter : JournalConfig → Except Unit (List Article))
       (journals : List JournalConfig) (st : SyncState) (doi : String) (v : Article),
      jsGet st.data.articles doi = some v →
      jsGet (fetchArticlesLoop adapter journals st).data.articles doi = some v) ∧
    (∀ (adapter : JournalConfig → Except Unit (List Article))
       (journals : List JournalConfig) (st : SyncState) (doi : String),
      jsGet st.data.articles doi = none →
      (∀ j ∈ journals, ∀ arts, adapter j = Except.ok arts →
        doi ∉ arts.map Article.doi) →
      jsGet (fetchArticlesLoop adapter journals st).data.articles doi = none) := by
  constructor
  · intro adapter journals
    induction journals with
    | nil => exact fun _ _ _ h => h
    | cons j js ih =>
      intro st doi v h
      exact ih _ _ _ (fetchJournalStep_preserves h)
  · intro adapter journals
    induction journals with
    | nil => exact fun _ _ h _ => h
    | cons j js ih =>
      intro st doi h hmem
      refine ih _ _ (fetchJournalStep_absent h ?_) ?_
      · intro arts he
        exact hmem j (List.mem_cons_self j js) arts he
      · intro j' hj' arts he
        exact hmem j' (List.mem_cons_of_mem j hj') arts he

/-- C1 witness: a collection already holding a viewed article with its
timestamps keeps that record bit-for-bit when the same identifier is fetched
again (with fresh metadata), via the general theorem at a concrete input. -/
theorem c1_witness :
    jsGet (fetchArticlesLoop
      (fun _ => Except.ok [mkSyncArticle "10.1/a1" "I1"])
      [mkSyncJournal "J1" "I1"]
      ⟨{ emptyData with articles :=
          [("10.1/a1", { mkSyncArticle "10.1/a1" "I1" with
            state := "viewed", viewedAt := some "2026-01-02" })] }, 0, 0⟩).data.articles
      "10.1/a1" =
    some { mkSyncArticle "10.1/a1" "I1" with
      state := "viewed", viewedAt := some "2026-01-02" } :=
  c1_merge_never_overwrites.1 _ _ _ _ _ (by decide)

/-! ### C9: save/skip transitions and their counters -/

theorem jsGet_init_bump_self {α : Type} (m : List (String × α)) (k : String)
    (d0 : α) (f : α → α) :
    jsGet (jsSet (if (jsGet m k).isNone then jsSet m k d0 else m) k
      (f ((jsGet (if (jsGet m k).isNone then jsSet m k d0 else m) k).getD d0))) k
    = some (f ((jsGet m k).getD d0)) := by
  by_cases h : (jsGet m k).isNone
  · rw [if_pos h, Option.isNone_iff_eq_none.mp h]
    simp [jsGet_set_self]
  · rw [if_neg h]
    obtain ⟨s, hs⟩ := Option.ne_none_iff_exists'.mp (by simpa using h)
    simp [hs, jsGet_set_self]

theorem jsGet_init_bump_ne {α : Type} (m : List (String × α)) (k k' : String)
    (d0 : α) (f : α → α) (hne : k' ≠ k) :
    jsGet (jsSet (if (jsGet m k).isNone then jsSet m k d0 else m) k
      (f ((jsGet (if (jsGet m k).isNone then jsSet m k d0 else m) k).getD d0))) k'
    = jsGet m k' := by
  by_cases h : (jsGet m k).isNone <;>
    simp [h, jsGet_set_ne _ _ _ _ hne]

/-- C9: from an article in state `unseen` with zeroed totals and a per-journal
entry that is absent-or-zero (the source initializes an absent entry to
zeros), one save transition sets `state`, `savedAt` and the saved location
and yields `totalSaved = 1` with the journal's `saved = 1`; a subsequent skip
of a distinct article sets its `state` to `skipped` and yields
`totalSkipped = 1` with that journal's `skipped = 1`. -/
theorem c9_save_skip_counters
    (a b : Article) (d : PluginData) (path now : String)
    (_ha : a.state = "unseen") (_hb : b.state = "unseen") (_hdistinct : b.doi ≠ a.doi)
    (h1 : d.statistics.totalSaved = 0) (h2 : d.statistics.totalSkipped = 0)
    (h3 : (jsGet d.statistics.byJournal a.journalIssn).getD ⟨0, 0, 0⟩ = ⟨0, 0, 0⟩)
    (h4 : (jsGet d.statistics.byJournal b.journalIssn).getD ⟨0, 0, 0⟩ = ⟨0, 0, 0⟩) :
    (BrowseView.saveArticle (Except.ok path) now a d).1.state = "saved" ∧
    (BrowseView.saveArticle (Except.ok path) now a d).1.savedAt = some now ∧
    (BrowseView.saveArticle (Except.ok path) now a d).1.savedPath = some path ∧
    (BrowseView.saveArticle (Except.ok path) now a d).2.statistics.totalSaved = 1 ∧
    (jsGet (BrowseView.saveArticle (Except.ok path) now a d).2.statistics.byJournal
      a.journalIssn).map JournalStat.saved = some 1 ∧
    (BrowseView.skipArticle b
      (BrowseView.saveArticle (Except.ok path) now a d).2).1.state = "skipped" ∧
    (BrowseView.skipArticle b
      (BrowseView.saveArticle (Except.ok path) now a d).2).2.statistics.totalSkipped = 1 ∧
    (jsGet (BrowseView.skipArticle b
        (BrowseView.saveArticle (Except.ok path) now a d).2).2.statistics.byJournal
      b.journalIssn).map JournalStat.skipped = some 1 := by
  have hsave_bj : jsGet (BrowseView.saveArticle (Except.ok path) now a d).2.statistics.byJournal
      a.journalIssn = some ⟨0, 1, 0⟩ := by
    have hb := jsGet_init_bump_self d.statistics.byJournal a.journalIssn ⟨0, 0, 0⟩
      (fun cur => ⟨cur.fetched, cur.saved + 1, cur.skipped⟩)
    rw [h3] at hb
    exact hb
  refine ⟨rfl, rfl, rfl, ?_, ?_, rfl, ?_, ?_⟩
  · rw [show (BrowseView.saveArticle (Except.ok path) now a d).2.statistics.totalSaved =
      d.statistics.totalSaved + 1 from rfl, h1]
  · rw [hsave_bj]; rfl
  · rw [show (BrowseView.skipArticle b
        (BrowseView.saveArticle (Except.ok path) now a d).2).2.statistics.totalSkipped =
      d.statistics.totalSkipped + 1 from rfl, h2]
  · have hstep : jsGet (BrowseView.skipArticle b
        (BrowseView.saveArticle (Except.ok path) now a d).2).2.statistics.byJournal
        b.journalIssn = some
          ⟨((jsGet (BrowseView.saveArticle (Except.ok path) now a d).2.statistics.byJournal
              b.journalIssn).getD ⟨0, 0, 0⟩).fetched,
            ((jsGet (BrowseView.saveArticle (Except.ok path) now a d).2.statistics.byJournal
              b.journalIssn).getD ⟨0, 0, 0⟩).saved,
            ((jsGet (BrowseView.saveArticle (Except.ok path) now a d).2.statistics.byJournal
              b.journalIssn).getD ⟨0, 0, 0⟩).skipped + 1⟩ :=
      jsGet_init_bump_self
        (BrowseView.saveArticle (Except.ok path) now a d).2.statistics.byJournal
        b.journalIssn ⟨0, 0, 0⟩
        (fun cur => ⟨cur.fetched, cur.saved, cur.skipped + 1⟩)
    by_cases hsame : b.journalIssn = a.journalIssn
    · rw [hsame] at hstep ⊢
      rw [hsave_bj] at hstep
      rw [hstep]
      rfl
    · have hpre : jsGet (BrowseView.saveArticle (Except.ok path) now a d).2.statistics.byJournal
          b.journalIssn = jsGet d.statistics.byJournal b.journalIssn :=
        jsGet_init_bump_ne d.statistics.byJournal a.journalIssn b.journalIssn ⟨0, 0, 0⟩
          (fun cur => ⟨cur.fetched, cur.saved + 1, cur.skipped⟩) hsame
      rw [hpre, h4] at hstep
      rw [hstep]
      rfl

/-- C9 witness: from fresh data, saving one concrete article and skipping a
distinct one yields the claimed counters, via the theorem at concrete
inputs. -/
theorem c9_witness :
    (BrowseView.saveArticle (Except.ok "p") "n"
      (mkSyncArticle "10.1/a1" "I1") emptyData).2.statistics.totalSaved = 1 ∧
    (BrowseView.skipArticle (mkSyncArticle "10.1/b1" "I3")
      (BrowseView.saveArticle (Except.ok "p") "n"
        (mkSyncArticle "10.1/a1" "I1") emptyData).2).2.statistics.totalSkipped = 1 :=
  ⟨(c9_save_skip_counters (mkSyncArticle "10.1/a1" "I1") (mkSyncArticle "10.1/b1" "I3")
      emptyData "p" "n" (by decide) (by decide) (by decide) rfl rfl (by decide)
      (by decide)).2.2.2.1,
    (c9_save_skip_counters (mkSyncArticle "10.1/a1" "I1") (mkSyncArticle "10.1/b1" "I3")
      emptyData "p" "n" (by decide) (by decide) (by decide) rfl rfl (by decide)
      (by decide)).2.2.2.2.2.2.1⟩
